import Mathlib

/-!
Shallow embedding of the VAYMN library-management application.

The data model follows `src/types.ts`; the seeded data follows
`src/services/db.ts`; the operations are translated from the handlers in
`src/App.tsx` (login, signup), the user dashboard (issue, search, fine) and
the admin dashboard (return, book create/edit/delete, user create/delete,
AI smart-fill merge).  Timestamps are modelled as integer milliseconds since
the epoch (the JS code stores ISO strings and compares the corresponding
`Date` values; `setDate(getDate() + 7)` is modelled as adding seven days'
worth of milliseconds).
-/

namespace Vaymn

/-- Mirrors `UserRole` in `src/types.ts`. -/
inductive UserRole
  | ADMIN
  | USER
deriving DecidableEq

/-- Mirrors `User` in `src/types.ts`.  `password` is optional there
("Optional when retrieving safe user objects"), hence `Option String`. -/
structure User where
  id : String
  libraryId : String
  password : Option String
  name : String
  role : UserRole
deriving DecidableEq

/-- Mirrors `Book` in `src/types.ts`.  `issuedDate` is an ISO timestamp in
the source, modelled as milliseconds since the epoch; the optional
`description` is modelled as a plain string (absent = `""`). -/
structure Book where
  id : String
  title : String
  author : String
  genre : String
  coverUrl : String
  standNumber : String
  isIssued : Bool
  issuedToUserId : Option String
  issuedDate : Option Int
  description : String
deriving DecidableEq

/-- Milliseconds in one day, `1000 * 60 * 60 * 24` as in the fine
computations in both dashboards. -/
def msPerDay : Int := 1000 * 60 * 60 * 24

/-- Seeded users from `seedData` in `src/services/db.ts`. -/
def seedUsers : List User :=
  [ { id := "admin1", libraryId := "admin", password := some "123",
      name := "Head Librarian", role := UserRole.ADMIN },
    { id := "user1", libraryId := "user", password := some "123",
      name := "John Doe", role := UserRole.USER } ]

/-- Seeded books from `seedData` in `src/services/db.ts`; `getPastDate 14`
for book `b3` becomes `now - 14 * msPerDay` where `now` is the seeding time. -/
def seedBooks (now : Int) : List Book :=
  [ { id := "b1", title := "The Great Gatsby", author := "F. Scott Fitzgerald",
      genre := "Classic", coverUrl := "https://picsum.photos/300/450?random=1",
      standNumber := "A1", isIssued := false, issuedToUserId := none,
      issuedDate := none, description := "A novel set in the Jazz Age." },
    { id := "b2", title := "1984", author := "George Orwell",
      genre := "Dystopian", coverUrl := "https://picsum.photos/300/450?random=2",
      standNumber := "B3", isIssued := false, issuedToUserId := none,
      issuedDate := none, description := "A story about totalitarianism." },
    { id := "b3", title := "Clean Code", author := "Robert C. Martin",
      genre := "Technology", coverUrl := "https://picsum.photos/300/450?random=3",
      standNumber := "T5", isIssued := true, issuedToUserId := some "user1",
      issuedDate := some (now - 14 * msPerDay),
      description := "A handbook of agile software craftsmanship." } ]

/-- Lending-state invariant of a book: `isIssued` is `true` exactly when
`issuedToUserId` is non-null, exactly when `issuedDate` is non-null
(boolean form, so that it can be evaluated). -/
def okBookB (b : Book) : Bool :=
  (b.isIssued == b.issuedToUserId.isSome) && (b.isIssued == b.issuedDate.isSome)

/-- `handleIssueBook` in the user dashboard: if the selected book is not
issued, mark the entry with its id as issued to the acting user at the
current time; otherwise nothing happens (no save, list unchanged). -/
def issueBook (books : List Book) (book : Book) (userId : String) (now : Int) :
    List Book :=
  if book.isIssued then books
  else
    books.map fun b =>
      if b.id = book.id then
        { b with isIssued := true, issuedToUserId := some userId,
                 issuedDate := some now }
      else b

/-- `handleReturnBook` in the admin dashboard: clear the lending state of the
entry with the given id. -/
def returnBook (books : List Book) (bookId : String) : List Book :=
  books.map fun b =>
    if b.id = bookId then
      { b with isIssued := false, issuedToUserId := none, issuedDate := none }
    else b

/-- `handleDeleteBook` in the admin dashboard: drop every entry with the
given id. -/
def deleteBook (books : List Book) (id : String) : List Book :=
  books.filter fun b => b.id ≠ id

/-- Catalog fields of the book form (`bookForm` state in the admin
dashboard), as used by the creation branch of `handleBookSubmit` and by
`handleSmartFill`. -/
structure BookForm where
  title : String
  author : String
  genre : String
  standNumber : String
  coverUrl : String
  description : String
deriving DecidableEq

/-- Creation branch of `handleBookSubmit`: validation requires a non-empty
title and stand number (falsy check in JS), then a fresh book is appended
with `isIssued: false`, null lending fields, and `|| `-defaults for author,
genre and cover. -/
def addBook (books : List Book) (form : BookForm) (newId : String) :
    List Book :=
  if form.title = "" || form.standNumber = "" then books
  else
    books ++
      [{ id := newId,
         isIssued := false, issuedToUserId := none, issuedDate := none,
         title := form.title,
         author := if form.author = "" then "Unknown" else form.author,
         genre := if form.genre = "" then "General" else form.genre,
         standNumber := form.standNumber,
         coverUrl := if form.coverUrl = "" then
             "https://via.placeholder.com/300x450?text=No+Cover"
           else form.coverUrl,
         description := form.description }]

/-- The edit flow: `handleEditBook` snapshots the whole book into the form,
the modal edits only the catalog fields, so on submit the form is the
snapshot with the catalog fields replaced. -/
def catalogEdit (b0 : Book) (t a g s c d : String) : Book :=
  { b0 with title := t, author := a, genre := g, standNumber := s,
            coverUrl := c, description := d }

/-- Edit branch of `handleBookSubmit`: after the same validation, every
entry whose id matches the form's id is replaced by the full form
(`{ ...b, ...bookForm }` with a fully-populated form). -/
def editBook (books : List Book) (form : Book) : List Book :=
  if form.title = "" || form.standNumber = "" then books
  else books.map fun b => if b.id = form.id then form else b

/-- Result of the AI enrichment call (`generateBookDetails`): a structured
record on success; the `none` case covers missing API key, empty response
and thrown errors alike. -/
structure AIDetails where
  author : String
  genre : String
  description : String
  coverUrl : String
deriving DecidableEq

/-- Merge step of `handleSmartFill`: on `none` nothing is written back; on
success author, genre and description are overwritten with the AI values and
the cover keeps the previous value unless it was empty
(`coverUrl: prev.coverUrl || data.coverUrl`). -/
def smartFillMerge (form : BookForm) (result : Option AIDetails) : BookForm :=
  match result with
  | none => form
  | some data =>
      { form with
        author := data.author,
        genre := data.genre,
        description := data.description,
        coverUrl := if form.coverUrl = "" then data.coverUrl else form.coverUrl }

/-- JS `String.prototype.toLowerCase`, per-character lowering. -/
def lowerStr (s : String) : String := String.mk (s.data.map Char.toLower)

/-- JS `String.prototype.trim`: strip leading and trailing whitespace. -/
def trimList (l : List Char) : List Char :=
  ((l.dropWhile Char.isWhitespace).reverse.dropWhile Char.isWhitespace).reverse

/-- JS `String.prototype.trim` on strings. -/
def strTrim (s : String) : String := String.mk (trimList s.data)

/-- JS `String.prototype.includes`: substring containment. -/
def strIncludes (s sub : String) : Bool := decide (sub.data <:+: s.data)

/-- Predicate of `filteredBooks` in the user dashboard: the lowercased query
occurs in the lowercased title, author or genre. -/
def matchesQuery (q : String) (b : Book) : Bool :=
  strIncludes (lowerStr b.title) (lowerStr q) ||
  strIncludes (lowerStr b.author) (lowerStr q) ||
  strIncludes (lowerStr b.genre) (lowerStr q)

/-- `filteredBooks` in the user dashboard. -/
def filteredBooks (books : List Book) (q : String) : List Book :=
  books.filter (matchesQuery q)

/-- Due date used by both fine computations: `issuedDate + 7 days`
(`dueDate.setDate(dueDate.getDate() + 7)`). -/
def dueDate (issuedDate : Int) : Int := issuedDate + 7 * msPerDay

/-- `Math.ceil(Math.abs(today - dueDate) / (1000*60*60*24))` from the fine
computation, as exact integer arithmetic (ceiling division on the absolute
difference). -/
def overdueDays (issuedDate now : Int) : Nat :=
  ((now - dueDate issuedDate).natAbs + 86399999) / 86400000

/-- Fine computation shared by `UserDashboard` (per book) and
`AdminDashboard` (summed per user): `diffDays * 5` when `today > dueDate`,
otherwise `0`. -/
def computeFine (issuedDate now : Int) : Int :=
  if dueDate issuedDate < now then (overdueDays issuedDate now : Int) * 5
  else 0

/-- Outcome of `handleLogin` in `src/App.tsx`: a session is established only
in the `success` case; the two failure notifications are distinct. -/
inductive LoginResult
  | success (u : User)
  | credentialError
  | roleMismatch
deriving DecidableEq

/-- `db.findUser`: first user whose `libraryId` matches. -/
def findUser (users : List User) (libId : String) : Option User :=
  users.find? fun u => u.libraryId == libId

/-- `handleLogin`: look the identifier up, require an exact password match,
then require the role of the portal; otherwise report
"Invalid Library ID or Password" resp. the role-mismatch message. -/
def login (users : List User) (libId secret : String) (role : UserRole) :
    LoginResult :=
  match findUser users libId with
  | some u =>
      if u.password = some secret then
        if u.role = role then LoginResult.success u else LoginResult.roleMismatch
      else LoginResult.credentialError
  | none => LoginResult.credentialError

/-- Outcome of an account-creation attempt; on the two error outcomes
nothing is saved, so the returned user list is the input list. -/
inductive SignupResult
  | ok (newUser : User)
  | missingFields
  | duplicateId
deriving DecidableEq

/-- `handleSignup` in `src/App.tsx`: trimmed-empty fields abort first, then
a `libraryId` collision against all existing users aborts, otherwise the new
user is appended (and auto-logged-in). -/
def signup (users : List User) (name libId password : String)
    (role : UserRole) (newId : String) : List User × SignupResult :=
  if strTrim name = "" || strTrim libId = "" || strTrim password = "" then
    (users, SignupResult.missingFields)
  else if users.any (fun u => u.libraryId == libId) then
    (users, SignupResult.duplicateId)
  else
    let newUser : User :=
      { id := newId, libraryId := libId, password := some password,
        name := name, role := role }
    (users ++ [newUser], SignupResult.ok newUser)

/-- Creation branch of `handleUserSubmit` in the admin dashboard: empty
fields abort first (no trimming there), then the duplicate check (creation
only), otherwise the new user is appended. -/
def adminCreateUser (users : List User) (name libId password : String)
    (role : UserRole) (newId : String) : List User × SignupResult :=
  if libId = "" || password = "" || name = "" then
    (users, SignupResult.missingFields)
  else if users.any (fun u => u.libraryId == libId) then
    (users, SignupResult.duplicateId)
  else
    let newUser : User :=
      { id := newId, libraryId := libId, password := some password,
        name := name, role := role }
    (users ++ [newUser], SignupResult.ok newUser)

/-- The two persisted collections that user deletion can touch. -/
structure DBState where
  users : List User
  books : List Book
deriving DecidableEq

/-- `handleDeleteUser` in the admin dashboard: filter the user out of the
user list and save only the user list; the books collection is not written. -/
def handleDeleteUser (s : DBState) (userId : String) : DBState :=
  { s with users := s.users.filter fun u => u.id ≠ userId }

/-- The admin dashboard's `issuedTo` lookup for a book card:
`book.issuedToUserId ? users.find(u => u.id === book.issuedToUserId) : null`. -/
def issuedToLookup (users : List User) (b : Book) : Option User :=
  match b.issuedToUserId with
  | some uid => users.find? fun u => u.id == uid
  | none => none

/-- Neutral book value used as the `getD` default in index-wise statements
(the indices used are always in range, so it is never selected). -/
def defaultBook : Book :=
  { id := "", title := "", author := "", genre := "", coverUrl := "",
    standNumber := "", isIssued := false, issuedToUserId := none,
    issuedDate := none, description := "" }

/-- Two users sharing a `libraryId`, as can arise through the admin edit
flow (which does not re-check identifier uniqueness). -/
def dupA : User :=
  { id := "uA", libraryId := "x", password := some "a", name := "A",
    role := UserRole.USER }

/-- Second user with the same `libraryId` as `dupA` but another password. -/
def dupB : User :=
  { id := "uB", libraryId := "x", password := some "b", name := "B",
    role := UserRole.USER }

/-- Book form with manually filled author, genre, description and an
uploaded cover. -/
def sampleForm : BookForm :=
  { title := "Some Title", author := "Manual Author", genre := "Manual Genre",
    standNumber := "A9", coverUrl := "data:image/jpeg;user-upload",
    description := "Manual description" }

/-- AI enrichment result used against `sampleForm`. -/
def sampleAI : AIDetails :=
  { author := "AI Author", genre := "AI Genre",
    description := "AI description",
    coverUrl := "https://picsum.photos/300/450" }

/-!  Helper lemmas shared by the claim theorems. -/

theorem issueBook_length (books : List Book) (book : Book) (uid : String)
    (now : Int) : (issueBook books book uid now).length = books.length := by
  unfold issueBook
  split <;> simp

theorem returnBook_length (books : List Book) (bookId : String) :
    (returnBook books bookId).length = books.length := by
  simp [returnBook]

theorem editBook_length (books : List Book) (form : Book) :
    (editBook books form).length = books.length := by
  unfold editBook
  split <;> simp

theorem get_map_cast {α β : Type} (f : α → β) (l : List α) (i : Fin l.length)
    (h : (l.map f).length = l.length) :
    (l.map f).get (Fin.cast h.symm i) = f (l.get i) := by
  simp [List.get_eq_getElem, List.getElem_map]

theorem ceilDiv_spec (a : ℕ) :
    (((a + 86399999) / 86400000 : ℕ) : ℤ) = ⌈(a : ℚ) / 86400000⌉ := by
  obtain ⟨q, hq⟩ : ∃ q : ℕ, (a + 86399999) / 86400000 = q := ⟨_, rfl⟩
  have h3 : a ≤ q * 86400000 := by omega
  have h4 : (q : ℤ) * 86400000 - 86400000 < (a : ℤ) := by omega
  rw [hq, eq_comm, Int.ceil_eq_iff]
  constructor
  · rw [lt_div_iff₀ (by norm_num : (0:ℚ) < 86400000)]
    have h4q : (q : ℚ) * 86400000 - 86400000 < (a : ℚ) := by exact_mod_cast h4
    push_cast
    linarith
  · rw [div_le_iff₀ (by norm_num : (0:ℚ) < 86400000)]
    have h3q : (a : ℚ) ≤ (q : ℚ) * 86400000 := by exact_mod_cast h3
    push_cast
    linarith

theorem getD_eq_getElem_of_lt {α : Type} (l : List α) (i : ℕ)
    (h : i < l.length) (d : α) : l.getD i d = l[i] := by
  rw [List.getD_eq_getElem?_getD, List.getElem?_eq_getElem h]
  rfl

theorem getD_map_of_lt {α β : Type} (f : α → β) (l : List α) (i : ℕ)
    (h : i < l.length) (dα : α) (dβ : β) :
    (l.map f).getD i dβ = f (l.getD i dα) := by
  rw [List.getD_eq_getElem?_getD, List.getD_eq_getElem?_getD,
    List.getElem?_map, List.getElem?_eq_getElem h]
  rfl

theorem mem_id_unique {books : List Book} (hnd : (books.map Book.id).Nodup)
    {x y : Book} (hx : x ∈ books) (hy : y ∈ books) (h : x.id = y.id) :
    x = y := by
  induction books with
  | nil => cases hx
  | cons w ws ih =>
    rw [List.map_cons, List.nodup_cons] at hnd
    rcases List.mem_cons.mp hx with rfl | hx2
    · rcases List.mem_cons.mp hy with rfl | hy2
      · rfl
      · exact absurd (by rw [h]; exact List.mem_map_of_mem Book.id hy2) hnd.1
    · rcases List.mem_cons.mp hy with rfl | hy2
      · exact absurd (by rw [← h]; exact List.mem_map_of_mem Book.id hx2)
          hnd.1
      · exact ih hnd.2 hx2 hy2

/-- C2: issuing an unissued book marks exactly the entry with its id as
issued to the acting user at the current time (all other entries untouched);
issuing an already-issued book leaves the whole list unchanged. -/
theorem issue_correct (books : List Book) (book : Book) (uid : String)
    (now : Int) :
    (book.isIssued = false →
      (issueBook books book uid now).length = books.length ∧
      ∀ i, i < books.length →
        (((books.getD i defaultBook).id = book.id →
          ((issueBook books book uid now).getD i defaultBook).isIssued =
            true ∧
          ((issueBook books book uid now).getD i defaultBook).issuedToUserId =
            some uid ∧
          ((issueBook books book uid now).getD i defaultBook).issuedDate =
            some now ∧
          ((issueBook books book uid now).getD i defaultBook).id =
            (books.getD i defaultBook).id ∧
          ((issueBook books book uid now).getD i defaultBook).title =
            (books.getD i defaultBook).title) ∧
         ((books.getD i defaultBook).id ≠ book.id →
          (issueBook books book uid now).getD i defaultBook =
            books.getD i defaultBook))) ∧
    (book.isIssued = true → issueBook books book uid now = books) := by
  constructor
  · intro hfalse
    have hmap : issueBook books book uid now = books.map (fun b =>
        if b.id = book.id then
          { b with isIssued := true, issuedToUserId := some uid,
                   issuedDate := some now }
        else b) := by
      unfold issueBook
      rw [if_neg (by simp [hfalse])]
    refine ⟨issueBook_length books book uid now, ?_⟩
    intro i hi
    rw [hmap, getD_map_of_lt _ _ _ hi defaultBook]
    constructor
    · intro hid
      rw [if_pos hid]
      exact ⟨rfl, rfl, rfl, rfl, rfl⟩
    · intro hid
      rw [if_neg hid]
  · intro htrue
    unfold issueBook
    rw [if_pos htrue]

/-- Closed instance of `issue_correct`, issuing the first seeded book. -/
theorem issue_correct_witness :
    ((issueBook (seedBooks 0) ((seedBooks 0).getD 0 defaultBook) "user1"
        99).getD 0 defaultBook).issuedToUserId = some "user1" ∧
    issueBook (seedBooks 0) ((seedBooks 0).getD 2 defaultBook) "user1" 99 =
      seedBooks 0 :=
  ⟨((((issue_correct (seedBooks 0) ((seedBooks 0).getD 0 defaultBook) "user1"
        99).1 (by decide)).2 0 (by decide)).1 (by decide)).2.1,
   (issue_correct (seedBooks 0) ((seedBooks 0).getD 2 defaultBook) "user1"
        99).2 (by decide)⟩

/-- C3: the admin return clears exactly the lending state of the entry with
the given id, whoever had issued it, and leaves its catalog fields and all
other entries unchanged. -/
theorem return_correct (books : List Book) (bookId : String) :
    (returnBook books bookId).length = books.length ∧
    ∀ i, i < books.length →
      (((books.getD i defaultBook).id = bookId →
        ((returnBook books bookId).getD i defaultBook).isIssued = false ∧
        ((returnBook books bookId).getD i defaultBook).issuedToUserId =
          none ∧
        ((returnBook books bookId).getD i defaultBook).issuedDate = none ∧
        ((returnBook books bookId).getD i defaultBook).id =
          (books.getD i defaultBook).id ∧
        ((returnBook books bookId).getD i defaultBook).title =
          (books.getD i defaultBook).title ∧
        ((returnBook books bookId).getD i defaultBook).author =
          (books.getD i defaultBook).author ∧
        ((returnBook books bookId).getD i defaultBook).genre =
          (books.getD i defaultBook).genre ∧
        ((returnBook books bookId).getD i defaultBook).coverUrl =
          (books.getD i defaultBook).coverUrl ∧
        ((returnBook books bookId).getD i defaultBook).standNumber =
          (books.getD i defaultBook).standNumber ∧
        ((returnBook books bookId).getD i defaultBook).description =
          (books.getD i defaultBook).description) ∧
       ((books.getD i defaultBook).id ≠ bookId →
        (returnBook books bookId).getD i defaultBook =
          books.getD i defaultBook)) := by
  refine ⟨returnBook_length books bookId, ?_⟩
  intro i hi
  unfold returnBook
  rw [getD_map_of_lt _ _ _ hi defaultBook]
  constructor
  · intro hid
    rw [if_pos hid]
    exact ⟨rfl, rfl, rfl, rfl, rfl, rfl, rfl, rfl, rfl, rfl⟩
  · intro hid
    rw [if_neg hid]

/-- Closed instance of `return_correct` on the seeded issued book. -/
theorem return_correct_witness :
    ((returnBook (seedBooks 0) "b3").getD 2 defaultBook).issuedToUserId =
      none ∧
    (returnBook (seedBooks 0) "b3").getD 0 defaultBook =
      (seedBooks 0).getD 0 defaultBook :=
  ⟨(((return_correct (seedBooks 0) "b3").2 2 (by decide)).1
      (by decide)).2.1,
   ((return_correct (seedBooks 0) "b3").2 0 (by decide)).2 (by decide)⟩

/-- C9: saving an admin edit of an existing book's catalog details keeps the
edited book's lending fields exactly as they were when the edit form was
opened, and leaves every other book unchanged. -/
theorem edit_frame (books : List Book) (b0 : Book) (t a g s c d : String)
    (hmem : b0 ∈ books) (hnd : (books.map Book.id).Nodup) :
    (editBook books (catalogEdit b0 t a g s c d)).length = books.length ∧
    ∀ i, i < books.length →
      (((books.getD i defaultBook).id = b0.id →
        ((editBook books (catalogEdit b0 t a g s c d)).getD i
            defaultBook).isIssued = b0.isIssued ∧
        ((editBook books (catalogEdit b0 t a g s c d)).getD i
            defaultBook).issuedToUserId = b0.issuedToUserId ∧
        ((editBook books (catalogEdit b0 t a g s c d)).getD i
            defaultBook).issuedDate = b0.issuedDate) ∧
       ((books.getD i defaultBook).id ≠ b0.id →
        (editBook books (catalogEdit b0 t a g s c d)).getD i defaultBook =
          books.getD i defaultBook)) := by
  refine ⟨editBook_length books _, ?_⟩
  intro i hi
  have hbmem : books.getD i defaultBook ∈ books := by
    rw [getD_eq_getElem_of_lt _ _ hi]
    exact List.getElem_mem hi
  unfold editBook
  by_cases hval : t = "" || s = ""
  · rw [if_pos (by simpa [catalogEdit] using hval)]
    constructor
    · intro hid
      have hb0 : books.getD i defaultBook = b0 :=
        mem_id_unique hnd hbmem hmem hid
      rw [hb0]
      exact ⟨rfl, rfl, rfl⟩
    · intro _
      rfl
  · rw [if_neg (by simpa [catalogEdit] using hval)]
    rw [getD_map_of_lt _ _ _ hi defaultBook]
    by_cases hid : (books.getD i defaultBook).id = b0.id
    · simp only [catalogEdit] at hid ⊢
      rw [if_pos hid]
      exact ⟨fun _ => ⟨rfl, rfl, rfl⟩, fun hne => absurd hid hne⟩
    · simp only [catalogEdit] at hid ⊢
      rw [if_neg hid]
      exact ⟨fun hidt => absurd hidt hid, fun _ => rfl⟩

/-- Closed instance of `edit_frame`, retitling the seeded issued book. -/
theorem edit_frame_witness :
    ((editBook (seedBooks 0)
        (catalogEdit ((seedBooks 0).getD 2 defaultBook) "Cleaner Code"
          "Robert C. Martin" "Technology" "T5" "cover" "desc")).getD 2
        defaultBook).issuedToUserId =
      ((seedBooks 0).getD 2 defaultBook).issuedToUserId :=
  (((edit_frame (seedBooks 0) ((seedBooks 0).getD 2 defaultBook)
      "Cleaner Code" "Robert C. Martin" "Technology" "T5" "cover" "desc"
      (by decide) (by decide)).2 2 (by decide)).1 (by decide)).2.1

/-- C1: the lending-state invariant (issued iff borrower set iff date set)
holds for the seeded books and is preserved by issuing, admin return, book
creation, catalog edit of an invariant-satisfying book, and deletion. -/
theorem lending_invariant :
    (∀ now, (seedBooks now).all okBookB = true) ∧
    (∀ books book uid now, books.all okBookB = true →
      (issueBook books book uid now).all okBookB = true) ∧
    (∀ books bookId, books.all okBookB = true →
      (returnBook books bookId).all okBookB = true) ∧
    (∀ books form newId, books.all okBookB = true →
      (addBook books form newId).all okBookB = true) ∧
    (∀ books b0 t a g s c d, books.all okBookB = true →
      okBookB b0 = true →
      (editBook books (catalogEdit b0 t a g s c d)).all okBookB = true) ∧
    (∀ books bookId, books.all okBookB = true →
      (deleteBook books bookId).all okBookB = true) := by
  refine ⟨?_, ?_, ?_, ?_, ?_, ?_⟩
  · intro now
    rfl
  · intro books book uid now hall
    unfold issueBook
    split
    · exact hall
    · rw [List.all_eq_true] at hall ⊢
      intro b hb
      rcases List.mem_map.mp hb with ⟨b0, hb0, rfl⟩
      by_cases h : b0.id = book.id
      · simp [h, okBookB]
      · simp only [if_neg h]
        exact hall b0 hb0
  · intro books bookId hall
    unfold returnBook
    rw [List.all_eq_true] at hall ⊢
    intro b hb
    rcases List.mem_map.mp hb with ⟨b0, hb0, rfl⟩
    by_cases h : b0.id = bookId
    · simp [h, okBookB]
    · simp only [if_neg h]
      exact hall b0 hb0
  · intro books form newId hall
    unfold addBook
    split
    · exact hall
    · rw [List.all_eq_true] at hall ⊢
      intro b hb
      rcases List.mem_append.mp hb with hb1 | hb2
      · exact hall b hb1
      · rcases List.mem_singleton.mp hb2 with rfl
        rfl
  · intro books b0 t a g s c d hall hok
    unfold editBook
    split
    · exact hall
    · rw [List.all_eq_true] at hall ⊢
      intro b hb
      rcases List.mem_map.mp hb with ⟨b1, hb1, rfl⟩
      by_cases h : b1.id = (catalogEdit b0 t a g s c d).id
      · rw [if_pos h]
        exact hok
      · rw [if_neg h]
        exact hall b1 hb1
  · intro books bookId hall
    unfold deleteBook
    rw [List.all_eq_true] at hall ⊢
    intro b hb
    exact hall b (List.mem_filter.mp hb).1

/-- Closed instance of `lending_invariant`, exercising every conjunct on the
seeded data. -/
theorem lending_invariant_witness :
    (seedBooks 0).all okBookB = true ∧
    (issueBook (seedBooks 0) defaultBook "user1" 0).all okBookB = true ∧
    (returnBook (seedBooks 0) "b3").all okBookB = true ∧
    (addBook (seedBooks 0) sampleForm "b4").all okBookB = true ∧
    (editBook (seedBooks 0)
      (catalogEdit defaultBook "t" "a" "g" "s" "c" "d")).all okBookB =
      true ∧
    (deleteBook (seedBooks 0) "b1").all okBookB = true :=
  ⟨lending_invariant.1 0,
   lending_invariant.2.1 (seedBooks 0) defaultBook "user1" 0 (by decide),
   lending_invariant.2.2.1 (seedBooks 0) "b3" (by decide),
   lending_invariant.2.2.2.1 (seedBooks 0) sampleForm "b4" (by decide),
   lending_invariant.2.2.2.2.1 (seedBooks 0) defaultBook "t" "a" "g" "s" "c"
     "d" (by decide) (by decide),
   lending_invariant.2.2.2.2.2 (seedBooks 0) "b1" (by decide)⟩

/-- C4: the fine is `0` when `now` is at most `issuedDate + 7` days; once
overdue it is `ceil((now - dueDate) / 1 day) * 5`; a book issued exactly 14
days before `now` yields 7 overdue days and a fine of 35, and one issued 3
days before `now` yields fine 0.  (`computeFine` is a pure function of
`issuedDate` and `now`; the `Book` record stores no fine field, so it is
derived on every read.) -/
theorem fine_correct (issuedDate now : Int) :
    (now ≤ dueDate issuedDate → computeFine issuedDate now = 0) ∧
    (dueDate issuedDate < now →
      computeFine issuedDate now =
        ⌈((now - dueDate issuedDate : Int) : ℚ) / 86400000⌉ * 5) ∧
    overdueDays (now - 14 * msPerDay) now = 7 ∧
    computeFine (now - 14 * msPerDay) now = 35 ∧
    computeFine (now - 3 * msPerDay) now = 0 := by
  have h14 : now - dueDate (now - 14 * msPerDay) = 604800000 := by
    simp only [dueDate, msPerDay]
    ring
  have hdays : overdueDays (now - 14 * msPerDay) now = 7 := by
    unfold overdueDays
    rw [h14]
    decide
  refine ⟨?_, ?_, hdays, ?_, ?_⟩
  · intro h
    unfold computeFine
    rw [if_neg (not_lt.mpr h)]
  · intro h
    unfold computeFine
    rw [if_pos h]
    have hpos : (0:ℤ) ≤ now - dueDate issuedDate := by linarith
    have hcast : (((now - dueDate issuedDate).natAbs : ℕ) : ℚ) =
        ((now - dueDate issuedDate : Int) : ℚ) := by
      rw [Int.cast_natAbs, abs_of_nonneg (by exact_mod_cast hpos)]
    unfold overdueDays
    rw [ceilDiv_spec, hcast]
  · unfold computeFine
    rw [if_pos (by rw [show dueDate (now - 14 * msPerDay) = now - 604800000 by
          simp only [dueDate, msPerDay]; ring]; linarith), hdays]
    norm_num
  · unfold computeFine
    rw [if_neg (by rw [show dueDate (now - 3 * msPerDay) = now + 345600000 by
          simp only [dueDate, msPerDay]; ring]; linarith)]

/-- Closed instance of `fine_correct` with every hypothesis discharged at a
concrete input. -/
theorem fine_correct_witness :
    computeFine 0 (3 * msPerDay) = 0 ∧
    computeFine 0 (14 * msPerDay) =
      ⌈((14 * msPerDay - dueDate 0 : Int) : ℚ) / 86400000⌉ * 5 ∧
    computeFine (0 - 14 * msPerDay) 0 = 35 :=
  ⟨(fine_correct 0 (3 * msPerDay)).1 (by decide),
   (fine_correct 0 (14 * msPerDay)).2.1 (by decide),
   (fine_correct 0 0).2.2.2.1⟩

/-- C8: the search result is exactly the sublist of books whose lowercased
title, author or genre contains the lowercased query (logical OR), in the
underlying collection order. -/
theorem search_correct (books : List Book) (q : String) :
    List.Sublist (filteredBooks books q) books ∧
    ∀ b, b ∈ filteredBooks books q ↔ b ∈ books ∧ matchesQuery q b = true := by
  constructor
  · exact List.filter_sublist _
  · intro b
    simp [filteredBooks, List.mem_filter]

/-- Closed instance of `search_correct`: a genre-only query returns the
seeded Dystopian book. -/
theorem search_correct_witness :
    (seedBooks 0).get ⟨1, by decide⟩ ∈ filteredBooks (seedBooks 0) "dys" :=
  ((search_correct (seedBooks 0) "dys").2 _).mpr (by decide)

/-- C10: deleting a user removes exactly the user records with that id,
leaves the books collection unchanged, and a book issued to the deleted user
keeps pointing at the now-missing id (the dashboard lookup finds no user). -/
theorem deleteUser_frame (users : List User) (books : List Book)
    (userId : String) :
    (handleDeleteUser ⟨users, books⟩ userId).books = books ∧
    List.Sublist (handleDeleteUser ⟨users, books⟩ userId).users users ∧
    (∀ u, u ∈ (handleDeleteUser ⟨users, books⟩ userId).users ↔
      u ∈ users ∧ u.id ≠ userId) ∧
    (∀ b, b ∈ books → b.issuedToUserId = some userId →
      b ∈ (handleDeleteUser ⟨users, books⟩ userId).books ∧
      issuedToLookup (handleDeleteUser ⟨users, books⟩ userId).users b = none) := by
  refine ⟨rfl, List.filter_sublist _, ?_, ?_⟩
  · intro u
    simp [handleDeleteUser, List.mem_filter]
  · intro b hb hto
    refine ⟨hb, ?_⟩
    simp only [issuedToLookup, hto, handleDeleteUser]
    rw [List.find?_eq_none]
    intro u hu
    have := (List.mem_filter.mp hu).2
    simp only [decide_eq_true_eq] at this
    simp [this]

/-- Closed instance of `deleteUser_frame`: deleting the seeded student keeps
the books intact and the issued book's reference dangles. -/
theorem deleteUser_frame_witness :
    (handleDeleteUser ⟨seedUsers, seedBooks 0⟩ "user1").books = seedBooks 0 ∧
    issuedToLookup (handleDeleteUser ⟨seedUsers, seedBooks 0⟩ "user1").users
      ((seedBooks 0).get ⟨2, by decide⟩) = none :=
  ⟨(deleteUser_frame seedUsers (seedBooks 0) "user1").1,
   ((deleteUser_frame seedUsers (seedBooks 0) "user1").2.2.2
      ((seedBooks 0).get ⟨2, by decide⟩) (by decide) (by decide)).2⟩

/-- C5 (amended): a creation request whose fields pass the non-empty
validation and whose `libraryId` collides with any existing user is rejected
with the duplicate-identifier error and the user list is returned
unchanged, both for self-service signup and for admin-authored creation. -/
theorem duplicate_id_rejected (users : List User) (name libId pw : String)
    (role : UserRole) (newId : String)
    (hdup : users.any (fun u => u.libraryId == libId) = true) :
    (strTrim name ≠ "" → strTrim libId ≠ "" → strTrim pw ≠ "" →
      signup users name libId pw role newId =
        (users, SignupResult.duplicateId)) ∧
    (name ≠ "" → libId ≠ "" → pw ≠ "" →
      adminCreateUser users name libId pw role newId =
        (users, SignupResult.duplicateId)) := by
  constructor
  · intro h1 h2 h3
    unfold signup
    rw [if_neg (by simp [h1, h2, h3]), if_pos hdup]
  · intro h1 h2 h3
    unfold adminCreateUser
    rw [if_neg (by simp [h1, h2, h3]), if_pos hdup]

/-- Closed instance of `duplicate_id_rejected` against the seeded admin. -/
theorem duplicate_id_rejected_witness :
    signup seedUsers "New Student" "admin" "pw" UserRole.USER "u9" =
      (seedUsers, SignupResult.duplicateId) ∧
    adminCreateUser seedUsers "New Student" "admin" "pw" UserRole.USER "u9" =
      (seedUsers, SignupResult.duplicateId) :=
  ⟨(duplicate_id_rejected seedUsers "New Student" "admin" "pw" UserRole.USER
      "u9" (by decide)).1 (by decide) (by decide) (by decide),
   (duplicate_id_rejected seedUsers "New Student" "admin" "pw" UserRole.USER
      "u9" (by decide)).2 (by decide) (by decide) (by decide)⟩

/-- C5 counterexample: a signup whose `libraryId` collides with the seeded
admin but whose name is blank is rejected with the missing-fields error,
not the duplicate-identifier error the claim promises for every colliding
creation request. -/
theorem duplicate_id_claim_counterexample :
    seedUsers.any (fun u => u.libraryId == "admin") = true ∧
    signup seedUsers " " "admin" "123" UserRole.USER "u9" =
      (seedUsers, SignupResult.missingFields) ∧
    SignupResult.missingFields ≠ SignupResult.duplicateId := by
  refine ⟨by decide, ?_, by decide⟩
  rfl

theorem findUser_unique {users : List User} {u : User} {libId : String}
    (hnd : (users.map User.libraryId).Nodup) (hu : u ∈ users)
    (hlib : u.libraryId = libId) : findUser users libId = some u := by
  induction users with
  | nil => cases hu
  | cons w ws ih =>
    rw [List.map_cons, List.nodup_cons] at hnd
    rcases List.mem_cons.mp hu with rfl | hu2
    · unfold findUser
      rw [List.find?_cons_of_pos _ (by simp [hlib])]
    · have hw : ¬ (w.libraryId == libId) = true := by
        simp only [beq_iff_eq]
        intro hcontra
        apply hnd.1
        rw [hcontra, ← hlib]
        exact List.mem_map_of_mem User.libraryId hu2
      have hstep : List.find? (fun u => u.libraryId == libId) (w :: ws) =
          List.find? (fun u => u.libraryId == libId) ws :=
        List.find?_cons_of_neg ws hw
      unfold findUser
      rw [hstep]
      exact ih hnd.2 hu2

theorem libraryId_unique {users : List User}
    (hnd : (users.map User.libraryId).Nodup) {u v : User}
    (hu : u ∈ users) (hv : v ∈ users) (h : u.libraryId = v.libraryId) :
    u = v := by
  induction users with
  | nil => cases hu
  | cons w ws ih =>
    rw [List.map_cons, List.nodup_cons] at hnd
    rcases List.mem_cons.mp hu with rfl | hu2
    · rcases List.mem_cons.mp hv with rfl | hv2
      · rfl
      · exact absurd (by rw [h]; exact List.mem_map_of_mem User.libraryId hv2)
          hnd.1
    · rcases List.mem_cons.mp hv with rfl | hv2
      · exact absurd
          (by rw [← h]; exact List.mem_map_of_mem User.libraryId hu2) hnd.1
      · exact ih hnd.2 hu2 hv2

/-- C6 (amended): over a user list whose login identifiers are pairwise
distinct (the data model's uniqueness invariant), login succeeds exactly for
the user matching identifier, secret and portal role; a missing identifier
or wrong secret yields the credential error; a correct identifier and secret
with the wrong role yields the distinct role-mismatch outcome.  Only the
`success` outcome establishes a session. -/
theorem login_correct (users : List User) (libId secret : String)
    (role : UserRole) (hnd : (users.map User.libraryId).Nodup) :
    (∀ u, login users libId secret role = LoginResult.success u ↔
      (u ∈ users ∧ u.libraryId = libId ∧ u.password = some secret ∧
        u.role = role)) ∧
    (login users libId secret role = LoginResult.credentialError ↔
      ∀ u, u ∈ users → u.libraryId = libId → u.password ≠ some secret) ∧
    (login users libId secret role = LoginResult.roleMismatch ↔
      ∃ u, u ∈ users ∧ u.libraryId = libId ∧ u.password = some secret ∧
        u.role ≠ role) := by
  cases hfu : findUser users libId with
  | none =>
    have hall : ∀ u ∈ users, u.libraryId ≠ libId := by
      intro u hu hcontra
      rw [findUser_unique hnd hu hcontra] at hfu
      cases hfu
    refine ⟨?_, ?_, ?_⟩
    · intro u
      constructor
      · intro h
        unfold login at h
        rw [hfu] at h
        cases h
      · rintro ⟨hu, hlib, _, _⟩
        exact absurd hlib (hall u hu)
    · constructor
      · intro _ u hu hlib _
        exact hall u hu hlib
      · intro _
        unfold login
        rw [hfu]
    · constructor
      · intro h
        unfold login at h
        rw [hfu] at h
        cases h
      · rintro ⟨u, hu, hlib, _, _⟩
        exact absurd hlib (hall u hu)
  | some v =>
    have hvmem : v ∈ users := by
      have hfu2 : users.find? (fun u => u.libraryId == libId) = some v := hfu
      exact List.mem_of_find?_eq_some hfu2
    have hvlib : v.libraryId = libId := by
      have hfu2 : users.find? (fun u => u.libraryId == libId) = some v := hfu
      have := List.find?_some hfu2
      simpa using this
    have huniq : ∀ u, u ∈ users → u.libraryId = libId → u = v := by
      intro u hu hl
      exact libraryId_unique hnd hu hvmem (hl.trans hvlib.symm)
    simp only [login, hfu]
    by_cases hpw : v.password = some secret
    · by_cases hrole : v.role = role
      · rw [if_pos hpw, if_pos hrole]
        refine ⟨?_, ?_, ?_⟩
        · intro u
          constructor
          · intro h
            cases h
            exact ⟨hvmem, hvlib, hpw, hrole⟩
          · rintro ⟨hu, hlib, _, _⟩
            rw [huniq u hu hlib]
        · constructor
          · intro h
            cases h
          · intro hforall
            exact absurd hpw (hforall v hvmem hvlib)
        · constructor
          · intro h
            cases h
          · rintro ⟨u, hu, hlib, _, hrole2⟩
            rw [huniq u hu hlib] at hrole2
            exact absurd hrole hrole2
      · rw [if_pos hpw, if_neg hrole]
        refine ⟨?_, ?_, ?_⟩
        · intro u
          constructor
          · intro h
            cases h
          · rintro ⟨hu, hlib, _, hrole2⟩
            rw [huniq u hu hlib] at hrole2
            exact absurd hrole2 hrole
        · constructor
          · intro h
            cases h
          · intro hforall
            exact absurd hpw (hforall v hvmem hvlib)
        · constructor
          · intro _
            exact ⟨v, hvmem, hvlib, hpw, hrole⟩
          · intro _
            rfl
    · rw [if_neg hpw]
      refine ⟨?_, ?_, ?_⟩
      · intro u
        constructor
        · intro h
          cases h
        · rintro ⟨hu, hlib, hpw2, _⟩
          rw [huniq u hu hlib] at hpw2
          exact absurd hpw2 hpw
      · constructor
        · intro _ u hu hlib hpw2
          rw [huniq u hu hlib] at hpw2
          exact absurd hpw2 hpw
        · intro _
          rfl
      · constructor
        · intro h
          cases h
        · rintro ⟨u, hu, hlib, hpw2, _⟩
          rw [huniq u hu hlib] at hpw2
          exact absurd hpw2 hpw

/-- Closed instance of `login_correct` on the seeded users: the admin logs
into the admin portal, and the student hitting the admin portal gets the
role mismatch. -/
theorem login_correct_witness :
    login seedUsers "admin" "123" UserRole.ADMIN =
      LoginResult.success (seedUsers.getD 0
        { id := "", libraryId := "", password := none, name := "",
          role := UserRole.USER }) ∧
    login seedUsers "user" "123" UserRole.ADMIN = LoginResult.roleMismatch :=
  ⟨((login_correct seedUsers "admin" "123" UserRole.ADMIN (by decide)).1
      _).mpr (by decide),
   ((login_correct seedUsers "user" "123" UserRole.ADMIN (by decide)).2.2).mpr
     ⟨seedUsers.getD 1
        { id := "", libraryId := "", password := none, name := "",
          role := UserRole.USER }, by decide, by decide, by decide,
      by decide⟩⟩

/-- C6 counterexample: with two users sharing the identifier `x` (reachable,
since admin edits do not re-check uniqueness), logging in with the second
user's correct secret and role still fails with the credential error, so
"login succeeds exactly when such a user exists" is false on arbitrary user
lists. -/
theorem login_claim_counterexample :
    dupB ∈ [dupA, dupB] ∧ dupB.libraryId = "x" ∧
    dupB.password = some "b" ∧ dupB.role = UserRole.USER ∧
    login [dupA, dupB] "x" "b" UserRole.USER =
      LoginResult.credentialError := by
  decide

/-- C7 (amended): a non-success enrichment result leaves the form untouched;
a success overwrites author, genre and description with the AI values,
while the cover keeps a previously set non-empty value (AI cover only fills
an empty one) and title and stand number are untouched. -/
theorem smartFill_merge (form : BookForm) (res : Option AIDetails) :
    (res = none → smartFillMerge form res = form) ∧
    (∀ d, res = some d →
      (smartFillMerge form res).author = d.author ∧
      (smartFillMerge form res).genre = d.genre ∧
      (smartFillMerge form res).description = d.description ∧
      (form.coverUrl ≠ "" →
        (smartFillMerge form res).coverUrl = form.coverUrl) ∧
      (form.coverUrl = "" →
        (smartFillMerge form res).coverUrl = d.coverUrl) ∧
      (smartFillMerge form res).title = form.title ∧
      (smartFillMerge form res).standNumber = form.standNumber) := by
  constructor
  · rintro rfl
    rfl
  · rintro d rfl
    refine ⟨rfl, rfl, rfl, ?_, ?_, rfl, rfl⟩
    · intro h
      simp [smartFillMerge, h]
    · intro h
      simp [smartFillMerge, h]

/-- Closed instance of `smartFill_merge`: the user-uploaded cover survives a
successful enrichment, and a `none` result is a no-op. -/
theorem smartFill_merge_witness :
    smartFillMerge sampleForm none = sampleForm ∧
    (smartFillMerge sampleForm (some sampleAI)).coverUrl =
      sampleForm.coverUrl :=
  ⟨(smartFill_merge sampleForm none).1 rfl,
   ((smartFill_merge sampleForm (some sampleAI)).2 sampleAI rfl).2.2.2.1
     (by decide)⟩

/-- C7 counterexample: a manually filled author is overwritten by the AI
author on a successful enrichment, so manual entries do not take precedence
for author, genre and description. -/
theorem smartFill_claim_counterexample :
    sampleForm.author = "Manual Author" ∧ sampleForm.author ≠ "" ∧
    (smartFillMerge sampleForm (some sampleAI)).author = "AI Author" ∧
    (smartFillMerge sampleForm (some sampleAI)).author ≠
      sampleForm.author := by
  decide

end Vaymn
